import Mathlib

/-!
Shallow embedding of the call-signaling logic of `src/src/chat.tsx`
(the `Chat` component; the file contains two near-identical variants,
called variant 1 and variant 2 below; they differ only in the inbound
`group_call_offer` handler, so all other definitions follow variant 1,
whose text coincides with variant 2).

Modelling conventions:
* Session-description blobs (offers/answers) and ICE candidates are
  opaque payloads, modelled as `Nat`.  Fresh blobs produced by
  `createOffer` / `createAnswer` are drawn from a counter `nextSdp`.
* `RTCPeerConnection` objects are heap-allocated: the heap is an
  association list `conns : List (Nat × PeerConn)` keyed by an
  allocation id drawn from `nextConnId`; the React ref
  `peerConnections.current` is an insertion-ordered string-keyed map,
  modelled as an association list `List (String × Nat)` whose values
  are heap ids (JS object assignment to an existing key keeps its
  position, a new key is appended).
* `pc.setRemoteDescription` / `pc.setLocalDescription` store the blob
  in the connection; `pc.addIceCandidate` appends the candidate to the
  connection's `appliedCandidates`; `pc.close()` sets its `closed`
  flag.  A `MediaStream` is an opaque id drawn from `nextStreamId`.
* `navigator.mediaDevices.getUserMedia` is an external collaborator:
  each operation that awaits it takes a boolean `mediaOk` telling
  whether acquisition succeeded or threw.
* Envelopes emitted on the socket and alerts shown to the user are
  returned explicitly next to the post-state.
-/

/-- One `RTCPeerConnection`, reduced to the facets the signaling code
reads and writes. -/
structure PeerConn where
  localDescription : Option Nat := none
  remoteDescription : Option Nat := none
  appliedCandidates : List Nat := []
  closed : Bool := false
deriving DecidableEq, Repr

/-- A freshly constructed `RTCPeerConnection`. -/
def newConn : PeerConn :=
  { localDescription := none, remoteDescription := none
    appliedCandidates := [], closed := false }

/-- The component state of `Chat` that the signaling code touches. -/
structure ClientState where
  username : String := ""
  users : List String := []
  targetUser : String := ""
  joinedGroup : String := ""
  inCall : Bool := false
  incomingCall : Option (String × Nat) := none
  ringtonePlaying : Bool := false
  peerConnections : List (String × Nat) := []
  conns : List (Nat × PeerConn) := []
  localStream : Option Nat := none
  remoteStreams : List (String × Nat) := []
  nextConnId : Nat := 0
  nextStreamId : Nat := 0
  nextSdp : Nat := 0
deriving DecidableEq, Repr

/-- Wire envelopes the client emits (`socket.emit(...)`). -/
inductive Envelope where
  | call_user (dst : String) (offer : Nat)
  | answer_call (dst : String) (answer : Nat)
  | decline_call (dst : String)
  | ice_candidate (dst : String) (candidate : Nat)
  | end_call
  | group_call_offer (group : String) (dst : String) (offer : Nat)
  | group_call_answer (dst : String) (answer : Nat)
deriving DecidableEq, Repr

/-- Result of an operation that may emit envelopes and show alerts. -/
structure CallResult where
  state : ClientState
  sent : List Envelope
  alerts : List String
deriving DecidableEq, Repr

/-- Result of `endCallCleanup`: the post-state plus its observable
side effects (which connections got `close()`d, which stream had its
tracks stopped). -/
structure CleanupResult where
  state : ClientState
  closedConns : List Nat
  releasedStream : Option Nat
deriving DecidableEq, Repr

/-- Result of `endCall`: envelopes plus the cleanup effects. -/
structure EndResult where
  state : ClientState
  sent : List Envelope
  closedConns : List Nat
  releasedStream : Option Nat
deriving DecidableEq, Repr

/-- `m[k]` on a string-keyed JS object (first binding wins; bindings
are unique by construction of `updateAssoc`). -/
def lookupAssoc (k : String) : List (String × Nat) → Option Nat
  | [] => none
  | (k₂, v) :: rest => if k₂ = k then some v else lookupAssoc k rest

/-- `m[k] = v` on a string-keyed JS object: replace in place if the
key exists, append otherwise. -/
def updateAssoc (k : String) (v : Nat) : List (String × Nat) → List (String × Nat)
  | [] => [(k, v)]
  | (k₂, v₂) :: rest =>
    if k₂ = k then (k, v) :: rest else (k₂, v₂) :: updateAssoc k v rest

/-- Dereference a heap id. -/
def lookupConn (id : Nat) : List (Nat × PeerConn) → Option PeerConn
  | [] => none
  | (i, c) :: rest => if i = id then some c else lookupConn id rest

/-- Mutate the connection at a heap id. -/
def updateConn (id : Nat) (f : PeerConn → PeerConn) :
    List (Nat × PeerConn) → List (Nat × PeerConn)
  | [] => []
  | (i, c) :: rest =>
    if i = id then (i, f c) :: rest else (i, c) :: updateConn id f rest

/-- `pc.close()` on each listed heap id, in order. -/
def closeConns (ids : List Nat) (heap : List (Nat × PeerConn)) :
    List (Nat × PeerConn) :=
  ids.foldl (fun h i => updateConn i (fun c => { c with closed := true }) h) heap

/-- The alert text shown when `getUserMedia` throws. -/
def mediaAlert : String := "Please allow camera and microphone access."

/-- `setupMedia` (chat.tsx lines 100-116): on success stores a fresh
stream in `localStream.current`; on failure logs, alerts, and returns
normally with the state otherwise untouched. -/
def setupMedia (mediaOk : Bool) (s : ClientState) : ClientState × List String :=
  if mediaOk then
    ({ s with localStream := some s.nextStreamId
              nextStreamId := s.nextStreamId + 1 }, [])
  else (s, [mediaAlert])

/-- `createPeerConnection` (chat.tsx lines 118-146): allocates a fresh
`RTCPeerConnection` and stores it in `peerConnections.current[peerId]`,
unconditionally overwriting any previous binding.  Returns the heap id
of the fresh connection. -/
def createPeerConnection (peerId : String) (s : ClientState) :
    ClientState × Nat :=
  let id := s.nextConnId
  ({ s with nextConnId := id + 1
            conns := s.conns ++ [(id, {})]
            peerConnections := updateAssoc peerId id s.peerConnections }, id)

/-- `startPrivateCall` (chat.tsx lines 174-185): no-op when no target
is selected; otherwise acquires media, creates a connection for the
target, creates and sets a local offer, emits `call_user`, and sets
`inCall`. -/
def startPrivateCall (mediaOk : Bool) (s : ClientState) : CallResult :=
  if s.targetUser = "" then { state := s, sent := [], alerts := [] }
  else
    let m := setupMedia mediaOk s
    let r := createPeerConnection s.targetUser m.1
    let offer := r.1.nextSdp
    let s₂ := { r.1 with
      nextSdp := offer + 1
      conns := updateConn r.2
        (fun c => { c with localDescription := some offer }) r.1.conns
      inCall := true }
    { state := s₂
      sent := [Envelope.call_user s.targetUser offer]
      alerts := m.2 }

/-- `answerCall` (chat.tsx lines 187-198): no-op when no call is
pending; otherwise stops the ringtone, acquires media, creates a
connection for the caller, applies the stored offer as remote
description, creates and sets a local answer, emits `answer_call`,
clears `incomingCall` and sets `inCall`. -/
def answerCall (mediaOk : Bool) (s : ClientState) : CallResult :=
  match s.incomingCall with
  | none => { state := s, sent := [], alerts := [] }
  | some (f, o) =>
    let s₀ := { s with ringtonePlaying := false }
    let m := setupMedia mediaOk s₀
    let r := createPeerConnection f m.1
    let s₁ := { r.1 with
      conns := updateConn r.2
        (fun c => { c with remoteDescription := some o }) r.1.conns }
    let ans := s₁.nextSdp
    let s₂ := { s₁ with
      nextSdp := ans + 1
      conns := updateConn r.2
        (fun c => { c with localDescription := some ans }) s₁.conns
      incomingCall := none
      inCall := true }
    { state := s₂
      sent := [Envelope.answer_call f ans]
      alerts := m.2 }

/-- `declineCall` (chat.tsx lines 200-206): when a call is pending,
emits `decline_call` to the caller, stops the ringtone and clears
`incomingCall`; otherwise does nothing. -/
def declineCall (s : ClientState) : CallResult :=
  match s.incomingCall with
  | none => { state := s, sent := [], alerts := [] }
  | some (f, _) =>
    { state := { s with ringtonePlaying := false, incomingCall := none }
      sent := [Envelope.decline_call f]
      alerts := [] }

/-- The group-call fan-out loop inside `startGroupCall` (chat.tsx
lines 213-222): per member, create a connection, create and set a
local offer, emit `group_call_offer`. -/
def groupOfferLoop (g : String) (members : List String) (s : ClientState) :
    ClientState × List Envelope :=
  match members with
  | [] => (s, [])
  | m :: rest =>
    let r := createPeerConnection m s
    let offer := r.1.nextSdp
    let s₂ := { r.1 with
      nextSdp := offer + 1
      conns := updateConn r.2
        (fun c => { c with localDescription := some offer }) r.1.conns }
    let t := groupOfferLoop g rest s₂
    (t.1, Envelope.group_call_offer g m offer :: t.2)

/-- `startGroupCall` (chat.tsx lines 208-223): no-op when no group is
joined; otherwise acquires media, sets `inCall`, and fans out one
offer per entry of the global `users` list minus the local username
(the joined group only labels the envelopes). -/
def startGroupCall (mediaOk : Bool) (s : ClientState) : CallResult :=
  if s.joinedGroup = "" then { state := s, sent := [], alerts := [] }
  else
    let m := setupMedia mediaOk s
    let s₁ := { m.1 with inCall := true }
    let r := groupOfferLoop s₁.joinedGroup
      (s₁.users.filter (fun u => u ≠ s₁.username)) s₁
    { state := r.1, sent := r.2, alerts := m.2 }

/-- `endCallCleanup` (chat.tsx lines 230-239): closes every connection
reachable from `peerConnections.current`, empties the map, stops the
local stream's tracks and nulls it, clears remote streams, `inCall`
and `incomingCall`. -/
def endCallCleanup (s : ClientState) : CleanupResult :=
  let ids := s.peerConnections.map Prod.snd
  { state := { s with
      conns := closeConns ids s.conns
      peerConnections := []
      localStream := none
      remoteStreams := []
      inCall := false
      incomingCall := none }
    closedConns := ids
    releasedStream := s.localStream }

/-- `endCall` (chat.tsx lines 225-228): emits a single unaddressed
`end_call` envelope, then runs `endCallCleanup`. -/
def endCall (s : ClientState) : EndResult :=
  let r := endCallCleanup s
  { state := r.state
    sent := [Envelope.end_call]
    closedConns := r.closedConns
    releasedStream := r.releasedStream }

/-- The `socket.on` handler for `call_user` (chat.tsx lines 55-59):
records the incoming offer and starts the looping ringtone. -/
def handleCallUser (f : String) (o : Nat) (s : ClientState) : ClientState :=
  { s with incomingCall := some (f, o), ringtonePlaying := true }

/-- The `socket.on` handler for `answer_call` (chat.tsx lines 61-64):
if a connection exists for the sender, applies the answer as its
remote description; otherwise does nothing.  Emits no envelope and no
alert in either case. -/
def handleAnswerCall (f : String) (a : Nat) (s : ClientState) : CallResult :=
  match lookupAssoc f s.peerConnections with
  | none => { state := s, sent := [], alerts := [] }
  | some cid =>
    { state := { s with
        conns := updateConn cid
          (fun c => { c with remoteDescription := some a }) s.conns }
      sent := []
      alerts := [] }

/-- The alert suffix shown by the `decline_call` handler. -/
def declineSuffix : String := " declined your call."

/-- The `socket.on` handler for `decline_call` (chat.tsx lines 66-69):
alerts and runs `endCallCleanup`. -/
def handleDeclineCall (f : String) (s : ClientState) : CallResult :=
  { state := (endCallCleanup s).state
    sent := []
    alerts := [f ++ declineSuffix] }

/-- The effect of `pc.addIceCandidate` on one connection (the lambda
passed to `updateConn` by the `ice_candidate` handler). -/
def applyCand (cand : Nat) (c : PeerConn) : PeerConn :=
  { c with appliedCandidates := c.appliedCandidates ++ [cand] }

/-- The `socket.on` handler for `ice_candidate` (chat.tsx lines
71-74): if a connection exists for the sender, applies the candidate
immediately; otherwise the candidate is dropped (there is no buffer). -/
def handleIceCandidate (f : String) (cand : Nat) (s : ClientState) : ClientState :=
  match lookupAssoc f s.peerConnections with
  | none => s
  | some cid => { s with conns := updateConn cid (applyCand cand) s.conns }

/-- The `socket.on` handler for `end_call` (chat.tsx lines 76-78). -/
def handleEndCall (s : ClientState) : ClientState :=
  (endCallCleanup s).state

/-- Variant 1's `socket.on` handler for `group_call_offer` (chat.tsx
lines 81-88): acquires media, creates a connection for the offerer,
applies the offer, creates a local answer, and emits
`group_call_answer` addressed to the inbound envelope's `to` field. -/
def handleGroupCallOffer1 (f : String) (o : Nat) (toField : String)
    (mediaOk : Bool) (s : ClientState) : CallResult :=
  let m := setupMedia mediaOk s
  let r := createPeerConnection f m.1
  let s₁ := { r.1 with
    conns := updateConn r.2
      (fun c => { c with remoteDescription := some o }) r.1.conns }
  let ans := s₁.nextSdp
  let s₂ := { s₁ with
    nextSdp := ans + 1
    conns := updateConn r.2
      (fun c => { c with localDescription := some ans }) s₁.conns }
  { state := s₂
    sent := [Envelope.group_call_answer toField ans]
    alerts := m.2 }

/-- Variant 2's `socket.on` handler for `group_call_offer` (chat.tsx
lines 436-443): same body as variant 1 except the emitted
`group_call_answer` is addressed to the offerer `from`. -/
def handleGroupCallOffer2 (f : String) (o : Nat)
    (mediaOk : Bool) (s : ClientState) : CallResult :=
  let m := setupMedia mediaOk s
  let r := createPeerConnection f m.1
  let s₁ := { r.1 with
    conns := updateConn r.2
      (fun c => { c with remoteDescription := some o }) r.1.conns }
  let ans := s₁.nextSdp
  let s₂ := { s₁ with
    nextSdp := ans + 1
    conns := updateConn r.2
      (fun c => { c with localDescription := some ans }) s₁.conns }
  { state := s₂
    sent := [Envelope.group_call_answer f ans]
    alerts := m.2 }

/-- The `socket.on` handler for `group_call_answer` (chat.tsx lines
90-93): identical in shape to the `answer_call` handler. -/
def handleGroupCallAnswer (f : String) (a : Nat) (s : ClientState) : CallResult :=
  match lookupAssoc f s.peerConnections with
  | none => { state := s, sent := [], alerts := [] }
  | some cid =>
    { state := { s with
        conns := updateConn cid
          (fun c => { c with remoteDescription := some a }) s.conns }
      sent := []
      alerts := [] }

/-- Deliver a sequence of `ice_candidate` envelopes from one sender,
in order. -/
def deliverCandidates (f : String) (cs : List Nat) (s : ClientState) : ClientState :=
  match cs with
  | [] => s
  | c :: rest => deliverCandidates f rest (handleIceCandidate f c s)

/-- Two consecutive `createPeerConnection` calls for the same peer:
final state and the two heap ids. -/
def callTwice (peerId : String) (s : ClientState) : ClientState × Nat × Nat :=
  let r₁ := createPeerConnection peerId s
  let r₂ := createPeerConnection peerId r₁.1
  (r₂.1, r₁.2, r₂.2)

/-- Offers produced by the group fan-out loop for a member list,
starting from a given description counter. -/
def offerList (g : String) (members : List String) (sdp : Nat) : List Envelope :=
  match members with
  | [] => []
  | m :: rest => Envelope.group_call_offer g m sdp :: offerList g rest (sdp + 1)

theorem lookupAssoc_updateAssoc_self (k : String) (v : Nat)
    (l : List (String × Nat)) :
    lookupAssoc k (updateAssoc k v l) = some v := by
  induction l with
  | nil => simp [updateAssoc, lookupAssoc]
  | cons p rest ih =>
    obtain ⟨k₂, v₂⟩ := p
    by_cases h : k₂ = k
    · simp [updateAssoc, lookupAssoc, h]
    · simp [updateAssoc, lookupAssoc, h, ih]

theorem updateAssoc_updateAssoc (k : String) (v₁ v₂ : Nat)
    (l : List (String × Nat)) :
    updateAssoc k v₂ (updateAssoc k v₁ l) = updateAssoc k v₂ l := by
  induction l with
  | nil => simp [updateAssoc]
  | cons p rest ih =>
    obtain ⟨k₂, v₃⟩ := p
    by_cases h : k₂ = k
    · simp [updateAssoc, h]
    · simp [updateAssoc, h, ih]

theorem snd_mem_updateAssoc (k : String) (v x : Nat) (l : List (String × Nat))
    (h : x ∈ (updateAssoc k v l).map Prod.snd) :
    x = v ∨ x ∈ l.map Prod.snd := by
  induction l with
  | nil =>
    simp only [updateAssoc, List.map_cons, List.map_nil, List.mem_cons,
      List.not_mem_nil, or_false] at h
    exact Or.inl h
  | cons p rest ih =>
    obtain ⟨k₂, v₂⟩ := p
    by_cases hk : k₂ = k
    · rw [show updateAssoc k v ((k₂, v₂) :: rest) = (k, v) :: rest by
        simp [updateAssoc, hk]] at h
      simp only [List.map_cons, List.mem_cons] at h
      rcases h with h | h
      · exact Or.inl h
      · exact Or.inr (by simp only [List.map_cons, List.mem_cons]; exact Or.inr h)
    · rw [show updateAssoc k v ((k₂, v₂) :: rest) = (k₂, v₂) :: updateAssoc k v rest by
        simp [updateAssoc, hk]] at h
      simp only [List.map_cons, List.mem_cons] at h
      rcases h with h | h
      · exact Or.inr (by simp only [List.map_cons, List.mem_cons]; exact Or.inl h)
      · rcases ih h with h₂ | h₂
        · exact Or.inl h₂
        · exact Or.inr (by simp only [List.map_cons, List.mem_cons]; exact Or.inr h₂)

theorem lookupConn_append_right (id : Nat) (h t : List (Nat × PeerConn))
    (hh : ∀ p ∈ h, p.1 ≠ id) :
    lookupConn id (h ++ t) = lookupConn id t := by
  induction h with
  | nil => rfl
  | cons p rest ih =>
    obtain ⟨i, c⟩ := p
    have hi : i ≠ id := hh (i, c) (by simp)
    simp only [List.cons_append, lookupConn, hi, if_false]
    exact ih (fun q hq => hh q (by simp [hq]))

theorem lookupConn_updateConn_ne (i id : Nat) (f : PeerConn → PeerConn)
    (h : List (Nat × PeerConn)) (hne : i ≠ id) :
    lookupConn id (updateConn i f h) = lookupConn id h := by
  induction h with
  | nil => rfl
  | cons p rest ih =>
    obtain ⟨j, c⟩ := p
    by_cases hj : j = i
    · subst hj
      simp [updateConn, lookupConn, hne]
    · simp only [updateConn, if_neg hj, lookupConn]
      by_cases hjd : j = id
      · rw [if_pos hjd, if_pos hjd]
      · rw [if_neg hjd, if_neg hjd]
        exact ih

theorem lookupConn_updateConn_self (id : Nat) (f : PeerConn → PeerConn)
    (h : List (Nat × PeerConn)) (pc : PeerConn)
    (hl : lookupConn id h = some pc) :
    lookupConn id (updateConn id f h) = some (f pc) := by
  induction h with
  | nil => simp [lookupConn] at hl
  | cons p rest ih =>
    obtain ⟨j, c⟩ := p
    by_cases hj : j = id
    · subst hj
      simp [lookupConn] at hl
      simp [updateConn, lookupConn, hl]
    · simp [lookupConn, hj] at hl
      simp [updateConn, lookupConn, hj]
      exact ih hl

theorem updateConn_idem (id : Nat) (f : PeerConn → PeerConn)
    (h : List (Nat × PeerConn)) (hf : ∀ c, f (f c) = f c) :
    updateConn id f (updateConn id f h) = updateConn id f h := by
  induction h with
  | nil => rfl
  | cons p rest ih =>
    obtain ⟨j, c⟩ := p
    by_cases hj : j = id
    · simp [updateConn, hj, hf]
    · simp [updateConn, hj, ih]

theorem lookupConn_closeConns_not_mem (id : Nat) (ids : List Nat) :
    ∀ h : List (Nat × PeerConn), id ∉ ids →
      lookupConn id (closeConns ids h) = lookupConn id h := by
  induction ids with
  | nil => intro h _; rfl
  | cons i rest ih =>
    intro h hmem
    have hne : i ≠ id := fun e => hmem (by simp [e])
    have hstep : closeConns (i :: rest) h =
        closeConns rest (updateConn i (fun c => { c with closed := true }) h) := rfl
    rw [hstep, ih _ (fun hm => hmem (by simp [hm])),
      lookupConn_updateConn_ne i id _ h hne]

theorem updateConn_map_rd (id : Nat) (f : PeerConn → PeerConn)
    (hf : ∀ c, (f c).remoteDescription = c.remoteDescription) :
    ∀ h : List (Nat × PeerConn),
      (updateConn id f h).map (fun p => p.2.remoteDescription) =
        h.map (fun p => p.2.remoteDescription) := by
  intro h
  induction h with
  | nil => rfl
  | cons p rest ih =>
    obtain ⟨j, c⟩ := p
    by_cases hj : j = id
    · simp [updateConn, hj, hf]
    · simp [updateConn, hj, ih]

theorem closeConns_map_rd (ids : List Nat) :
    ∀ h : List (Nat × PeerConn),
      (closeConns ids h).map (fun p => p.2.remoteDescription) =
        h.map (fun p => p.2.remoteDescription) := by
  induction ids with
  | nil => intro h; rfl
  | cons i rest ih =>
    intro h
    have hstep : closeConns (i :: rest) h =
        closeConns rest (updateConn i (fun c => { c with closed := true }) h) := rfl
    rw [hstep, ih,
      updateConn_map_rd i (fun c => { c with closed := true }) (fun c => rfl)]

theorem deliverCandidates_applied (f : String) (cid : Nat) (cs : List Nat) :
    ∀ (s : ClientState) (pc : PeerConn),
      lookupAssoc f s.peerConnections = some cid →
      lookupConn cid s.conns = some pc →
      lookupConn cid (deliverCandidates f cs s).conns =
        some { pc with appliedCandidates := pc.appliedCandidates ++ cs } := by
  induction cs with
  | nil =>
    intro s pc _ h₂
    rw [show deliverCandidates f [] s = s from rfl]
    rw [h₂]
    cases pc
    simp
  | cons c rest ih =>
    intro s pc h₁ h₂
    have hstep : deliverCandidates f (c :: rest) s =
        deliverCandidates f rest (handleIceCandidate f c s) := rfl
    have hhandle : handleIceCandidate f c s =
        { s with conns := updateConn cid (applyCand c) s.conns } := by
      simp [handleIceCandidate, h₁, applyCand]
    have h₂' : lookupConn cid (updateConn cid (applyCand c) s.conns) =
        some (applyCand c pc) :=
      lookupConn_updateConn_self cid (applyCand c) s.conns pc h₂
    have h₁' : lookupAssoc f
        ({ s with conns := updateConn cid (applyCand c) s.conns }).peerConnections =
        some cid := h₁
    rw [hstep, hhandle]
    have h₃ := ih { s with conns := updateConn cid (applyCand c) s.conns }
      (applyCand c pc) h₁' h₂'
    simpa [applyCand, List.append_assoc] using h₃

theorem groupOfferLoop_sent (g : String) (members : List String) :
    ∀ s : ClientState,
      (groupOfferLoop g members s).2 = offerList g members s.nextSdp := by
  induction members with
  | nil => intro s; rfl
  | cons m rest ih =>
    intro s
    simp only [groupOfferLoop, offerList]
    rw [ih]
    rfl

theorem groupOfferLoop_nextConnId (g : String) (members : List String) :
    ∀ s : ClientState,
      (groupOfferLoop g members s).1.nextConnId = s.nextConnId + members.length := by
  induction members with
  | nil => intro s; simp [groupOfferLoop]
  | cons m rest ih =>
    intro s
    simp only [groupOfferLoop]
    rw [ih]
    show s.nextConnId + 1 + rest.length = s.nextConnId + (rest.length + 1)
    omega

/-- Concrete user and group names for counterexamples and witnesses. -/
def uA : String := "A"

def uB : String := "B"

def uC : String := "C"

def gG : String := "G"

/-- Claim C4: re-delivery of an already-applied `answer_call` envelope
is a no-op: the state after the duplicate delivery equals the state
after the first delivery, and the duplicate delivery emits no envelope
and no alert. -/
theorem c4_duplicate_answer_noop (s : ClientState) (f : String) (a : Nat) :
    (handleAnswerCall f a (handleAnswerCall f a s).state).state =
      (handleAnswerCall f a s).state ∧
    (handleAnswerCall f a (handleAnswerCall f a s).state).sent = [] ∧
    (handleAnswerCall f a (handleAnswerCall f a s).state).alerts = [] := by
  cases hl : lookupAssoc f s.peerConnections with
  | none => simp [handleAnswerCall, hl]
  | some cid =>
    have hidem := updateConn_idem cid
      (fun c => { c with remoteDescription := some a }) s.conns (fun c => rfl)
    simp [handleAnswerCall, hl, hidem]

/-- Claim C6 (amended): `endCall` emits exactly one unaddressed
`end_call` envelope no matter how many links remain; the cleanup
closes exactly the connections reachable from the map and stops the
local stream's tracks once, leaving the map empty and the stream
null. -/
theorem c6_endCall_single_envelope (s : ClientState) :
    (endCall s).sent = [Envelope.end_call] ∧
    (endCall s).closedConns = s.peerConnections.map Prod.snd ∧
    (endCall s).releasedStream = s.localStream ∧
    (endCall s).state.localStream = none ∧
    (endCall s).state.peerConnections = [] := by
  refine ⟨rfl, rfl, rfl, rfl, rfl⟩

/-- Claim C6 fails as stated: for a group session with two remaining
remote links, `endCall` emits one envelope, not one per remote. -/
def c6cex : ClientState :=
  { username := uA
    inCall := true
    localStream := some 0
    peerConnections := [(uB, 0), (uC, 1)]
    conns := [(0, {}), (1, {})]
    nextConnId := 2
    nextStreamId := 1 }

/-- Claim C6 counterexample: with N = 2 remaining remotes the code
sends exactly one `end_call` envelope, not two. -/
theorem c6_counterexample :
    c6cex.peerConnections.length = 2 ∧
    (endCall c6cex).sent = [Envelope.end_call] ∧
    (endCall c6cex).sent.length ≠ c6cex.peerConnections.length := by
  decide

/-- Claim C8 (amended): the two `group_call_offer` handler variants
perform identical state updates and identical alerts, but variant 1
addresses its `group_call_answer` to the inbound envelope's `to`
field while variant 2 addresses it to the offerer `from`; their
emitted envelopes coincide exactly when those two fields coincide. -/
theorem c8_variants_divergence (s : ClientState) (f toField : String)
    (o : Nat) (mediaOk : Bool) :
    (handleGroupCallOffer1 f o toField mediaOk s).state =
      (handleGroupCallOffer2 f o mediaOk s).state ∧
    (handleGroupCallOffer1 f o toField mediaOk s).alerts =
      (handleGroupCallOffer2 f o mediaOk s).alerts ∧
    ((handleGroupCallOffer1 f o toField mediaOk s).sent =
      (handleGroupCallOffer2 f o mediaOk s).sent ↔ toField = f) := by
  refine ⟨rfl, rfl, ?_⟩
  simp [handleGroupCallOffer1, handleGroupCallOffer2]

/-- A state in which an inbound group offer from `A` addressed to `B`
is processed by each variant. -/
def c8cex : ClientState := { username := uB, users := [uA, uB] }

/-- Claim C8 counterexample: on the same inbound group offer
(`from = A`, `to = B`) variant 1 replies to `B` and variant 2 replies
to `A`, so the two variants are not equivalent. -/
theorem c8_counterexample :
    (handleGroupCallOffer1 uA 0 uB true c8cex).sent =
      [Envelope.group_call_answer uB 0] ∧
    (handleGroupCallOffer2 uA 0 true c8cex).sent =
      [Envelope.group_call_answer uA 0] ∧
    (handleGroupCallOffer1 uA 0 uB true c8cex).sent ≠
      (handleGroupCallOffer2 uA 0 true c8cex).sent := by
  decide

/-- Claim C9: `endCallCleanup` is idempotent.  One call leaves the
peer-connection map empty, the local stream null, the remote-stream
map empty, `inCall` false and `incomingCall` null; a consecutive
second call returns exactly the same state and has no further effect
(it closes no connection and stops no stream). -/
theorem c9_cleanup_idempotent (s : ClientState) :
    (endCallCleanup (endCallCleanup s).state).state = (endCallCleanup s).state ∧
    (endCallCleanup (endCallCleanup s).state).closedConns = [] ∧
    (endCallCleanup (endCallCleanup s).state).releasedStream = none ∧
    (endCallCleanup s).state.peerConnections = [] ∧
    (endCallCleanup s).state.localStream = none ∧
    (endCallCleanup s).state.remoteStreams = [] ∧
    (endCallCleanup s).state.inCall = false ∧
    (endCallCleanup s).state.incomingCall = none := by
  refine ⟨rfl, rfl, rfl, rfl, rfl, rfl, rfl, rfl⟩

/-- Callee-side start state for the C1 trace: `B` is online with `A`. -/
def c1Start : ClientState := { username := uB, users := [uA, uB] }

/-- Claim C1 fails on the code: on the callee side an `ice_candidate`
arriving between the incoming `call_user` offer and the local answer
is dropped, because no peer connection exists yet for the sender and
the handler has no buffer — delivering candidate 42 leaves the state
unchanged, and after `answerCall` the freshly created connection has
applied no candidate at all. -/
theorem c1_counterexample :
    handleIceCandidate uA 42 (handleCallUser uA 0 c1Start) =
      handleCallUser uA 0 c1Start ∧
    lookupAssoc uA
      (answerCall true
        (handleIceCandidate uA 42 (handleCallUser uA 0 c1Start))).state.peerConnections
      = some 0 ∧
    Option.map PeerConn.appliedCandidates
      (lookupConn 0
        (answerCall true
          (handleIceCandidate uA 42 (handleCallUser uA 0 c1Start))).state.conns)
      = some [] := by
  decide

/-- Claim C1 (amended): the `ice_candidate` handler has no buffer.
Candidates delivered while a peer connection exists for the sender are
applied to that connection immediately, in arrival order; a candidate
delivered while no peer connection exists for the sender — in
particular on the callee side between the incoming offer and the local
answer — is silently dropped. -/
theorem c1_candidates_applied_or_dropped (s : ClientState) (f : String)
    (cid : Nat) (pc : PeerConn) (cs : List Nat)
    (h₁ : lookupAssoc f s.peerConnections = some cid)
    (h₂ : lookupConn cid s.conns = some pc) :
    lookupConn cid (deliverCandidates f cs s).conns =
      some { pc with appliedCandidates := pc.appliedCandidates ++ cs } ∧
    ∀ (s₂ : ClientState) (g : String) (c : Nat),
      lookupAssoc g s₂.peerConnections = none →
      handleIceCandidate g c s₂ = s₂ := by
  constructor
  · exact deliverCandidates_applied f cid cs s pc h₁ h₂
  · intro s₂ g c hn
    simp [handleIceCandidate, hn]

/-- A state with a live connection for `A`, used to witness C1's
amended theorem. -/
def c1w : ClientState :=
  { username := uB
    peerConnections := [(uA, 0)]
    conns := [(0, {})]
    nextConnId := 1 }

theorem c1_witness :
    lookupAssoc uA c1w.peerConnections = some 0 ∧
    lookupConn 0 c1w.conns = some {} ∧
    lookupConn 0 (deliverCandidates uA [5, 7] c1w).conns =
      some { appliedCandidates := [5, 7] } :=
  ⟨by decide, by decide,
    (c1_candidates_applied_or_dropped c1w uA 0 {} [5, 7]
      (by decide) (by decide)).1⟩

/-- A state in which a private call is already active (`inCall = true`,
one live connection to `B`), used against C2. -/
def c2cex : ClientState :=
  { username := uA
    targetUser := uB
    inCall := true
    peerConnections := [(uB, 0)]
    conns := [(0, {})]
    nextConnId := 1
    localStream := some 0
    nextStreamId := 1 }

/-- Claim C2 fails on the code: with a call already active, a second
`startPrivateCall` does not fail — it emits another `call_user`
envelope and replaces the stored peer connection. -/
theorem c2_counterexample :
    c2cex.inCall = true ∧
    (startPrivateCall true c2cex).sent = [Envelope.call_user uB 0] ∧
    (startPrivateCall true c2cex).state.peerConnections ≠
      c2cex.peerConnections := by
  decide

/-- Claim C2 (amended): `startPrivateCall` performs no `AlreadyInCall`
check.  Whenever a target user is selected — regardless of whether a
call is already active — it emits exactly one `call_user` offer to the
target, sets `inCall`, and rebinds the target's map entry to a fresh
connection. -/
theorem c2_no_already_in_call_check (s : ClientState) (mediaOk : Bool)
    (h : s.targetUser ≠ "") :
    (startPrivateCall mediaOk s).sent =
      [Envelope.call_user s.targetUser s.nextSdp] ∧
    (startPrivateCall mediaOk s).state.inCall = true ∧
    lookupAssoc s.targetUser (startPrivateCall mediaOk s).state.peerConnections =
      some s.nextConnId := by
  cases mediaOk <;>
    simp [startPrivateCall, setupMedia, createPeerConnection, h,
      lookupAssoc_updateAssoc_self]

theorem c2_witness :
    c2cex.targetUser ≠ "" ∧
    ((startPrivateCall true c2cex).sent = [Envelope.call_user uB 0] ∧
     (startPrivateCall true c2cex).state.inCall = true ∧
     lookupAssoc uB (startPrivateCall true c2cex).state.peerConnections =
       some 1) :=
  ⟨by decide, c2_no_already_in_call_check c2cex true (by decide)⟩

/-- A state where `A` has joined group `G`: the global user list is
`[A, B, C]`, while the member set of `G` is taken to be `{A, B}`. -/
def c3cex : ClientState := { username := uA, users := [uA, uB, uC], joinedGroup := gG }

/-- Claim C3 fails on the code: `startGroupCall` draws its recipients
from the global connected-user list, not from the group's member set.
With member set `{A, B}` for `G`, the code still emits a `G`-labelled
offer to `C`, who is not a member. -/
theorem c3_counterexample :
    (startGroupCall true c3cex).sent =
      [Envelope.group_call_offer gG uB 0, Envelope.group_call_offer gG uC 1] ∧
    uC ∉ [uA, uB] := by
  decide

/-- Claim C3 (amended): `startGroupCall` creates exactly one peer link
and emits exactly one `group_call_offer` per entry of the global
`users` list excluding the local username — group membership is never
consulted, and the joined group id only labels the envelopes. -/
theorem c3_fanout_over_user_list (s : ClientState) (mediaOk : Bool)
    (h : s.joinedGroup ≠ "") :
    (startGroupCall mediaOk s).sent =
      offerList s.joinedGroup (s.users.filter (fun u => u ≠ s.username))
        s.nextSdp ∧
    (startGroupCall mediaOk s).state.nextConnId =
      s.nextConnId + (s.users.filter (fun u => u ≠ s.username)).length := by
  cases mediaOk <;>
    simp [startGroupCall, setupMedia, h, groupOfferLoop_sent,
      groupOfferLoop_nextConnId]

theorem c3_witness :
    c3cex.joinedGroup ≠ "" ∧
    ((startGroupCall true c3cex).sent =
      offerList gG [uB, uC] 0 ∧
     (startGroupCall true c3cex).state.nextConnId = 2) :=
  ⟨by decide, c3_fanout_over_user_list c3cex true (by decide)⟩

/-- A state where `A` has both a target user and a joined group, and
media acquisition is about to fail. -/
def c5cex : ClientState :=
  { username := uA
    targetUser := uB
    joinedGroup := gG
    users := [uA, uB] }

/-- Claim C5 fails on the code: when media capture fails, `setupMedia`
alerts and returns normally, and both call starters still proceed to
emit their offer envelopes. -/
theorem c5_counterexample :
    (startPrivateCall false c5cex).alerts = [mediaAlert] ∧
    (startPrivateCall false c5cex).sent = [Envelope.call_user uB 0] ∧
    (startGroupCall false c5cex).alerts = [mediaAlert] ∧
    (startGroupCall false c5cex).sent = [Envelope.group_call_offer gG uB 0] := by
  decide

/-- Claim C5 (amended): on media-capture failure the error is surfaced
to the UI as an alert, but the call is not aborted: `startPrivateCall`
still emits its `call_user` offer (leaving `localStream` unset as it
was), and `startGroupCall` still emits its full fan-out of
`group_call_offer` envelopes. -/
theorem c5_media_error_does_not_abort (s : ClientState)
    (h₁ : s.targetUser ≠ "") (h₂ : s.joinedGroup ≠ "") :
    (startPrivateCall false s).alerts = [mediaAlert] ∧
    (startPrivateCall false s).sent =
      [Envelope.call_user s.targetUser s.nextSdp] ∧
    (startPrivateCall false s).state.localStream = s.localStream ∧
    (startGroupCall false s).alerts = [mediaAlert] ∧
    (startGroupCall false s).sent =
      offerList s.joinedGroup (s.users.filter (fun u => u ≠ s.username))
        s.nextSdp := by
  simp [startPrivateCall, startGroupCall, setupMedia, createPeerConnection,
    h₁, h₂, groupOfferLoop_sent]

theorem c5_witness :
    c5cex.targetUser ≠ "" ∧ c5cex.joinedGroup ≠ "" ∧
    ((startPrivateCall false c5cex).alerts = [mediaAlert] ∧
     (startPrivateCall false c5cex).sent = [Envelope.call_user uB 0] ∧
     (startPrivateCall false c5cex).state.localStream = none ∧
     (startGroupCall false c5cex).alerts = [mediaAlert] ∧
     (startGroupCall false c5cex).sent = offerList gG [uB] 0) :=
  ⟨by decide, by decide,
    c5_media_error_does_not_abort c5cex (by decide) (by decide)⟩

/-- Claim C7: in a ringing private call, the callee's decline emits
exactly one `decline_call` envelope to the caller, stops the ringtone
and clears the pending call while creating no connection; the caller,
on receiving the decline, tears down all call state (map emptied,
`inCall` false, stream released), and no connection on either side
ever has a remote description applied along this path — so no link
ever reaches the connected state. -/
theorem c7_decline_ends_ringing_call (sA sB : ClientState) (f : String) (o : Nat)
    (hA : sA.targetUser ≠ "")
    (hW : ∀ p ∈ sA.conns, p.1 < sA.nextConnId)
    (hB : sB.incomingCall = some (f, o)) :
    (declineCall sB).sent = [Envelope.decline_call f] ∧
    (declineCall sB).state.incomingCall = none ∧
    (declineCall sB).state.ringtonePlaying = false ∧
    (declineCall sB).state.conns = sB.conns ∧
    Option.map PeerConn.remoteDescription
      (lookupConn sA.nextConnId (startPrivateCall true sA).state.conns) =
      some none ∧
    (handleDeclineCall f (startPrivateCall true sA).state).state.peerConnections
      = [] ∧
    (handleDeclineCall f (startPrivateCall true sA).state).state.inCall = false ∧
    (handleDeclineCall f (startPrivateCall true sA).state).state.localStream
      = none ∧
    (handleDeclineCall f (startPrivateCall true sA).state).state.conns.map
        (fun p => p.2.remoteDescription) =
      (startPrivateCall true sA).state.conns.map
        (fun p => p.2.remoteDescription) := by
  have hconn : (startPrivateCall true sA).state.conns =
      updateConn sA.nextConnId
        (fun c => { c with localDescription := some sA.nextSdp })
        (sA.conns ++ [(sA.nextConnId, newConn)]) := by
    simp [startPrivateCall, setupMedia, createPeerConnection, newConn, hA]
  have hne : ∀ p ∈ sA.conns, p.1 ≠ sA.nextConnId :=
    fun p hp => Nat.ne_of_lt (hW p hp)
  have hlook : lookupConn sA.nextConnId (sA.conns ++ [(sA.nextConnId, newConn)]) =
      some newConn := by
    rw [lookupConn_append_right _ _ _ hne]
    simp [lookupConn]
  have h₅ := lookupConn_updateConn_self sA.nextConnId
    (fun c => { c with localDescription := some sA.nextSdp })
    (sA.conns ++ [(sA.nextConnId, newConn)]) newConn hlook
  refine ⟨?_, ?_, ?_, ?_, ?_, rfl, rfl, rfl, ?_⟩
  · simp [declineCall, hB]
  · simp [declineCall, hB]
  · simp [declineCall, hB]
  · simp [declineCall, hB]
  · rw [hconn, h₅]
    rfl
  · exact closeConns_map_rd
      ((startPrivateCall true sA).state.peerConnections.map Prod.snd)
      (startPrivateCall true sA).state.conns

/-- Caller-side start state for the C7 witness. -/
def c7A : ClientState := { username := uA, targetUser := uB, users := [uA, uB] }

/-- Callee-side ringing state for the C7 witness. -/
def c7B : ClientState :=
  { username := uB
    users := [uA, uB]
    incomingCall := some (uA, 0)
    ringtonePlaying := true }

theorem c7_witness :
    (declineCall c7B).sent = [Envelope.decline_call uA] ∧
    (declineCall c7B).state.incomingCall = none ∧
    (declineCall c7B).state.ringtonePlaying = false ∧
    (declineCall c7B).state.conns = c7B.conns ∧
    Option.map PeerConn.remoteDescription
      (lookupConn c7A.nextConnId (startPrivateCall true c7A).state.conns) =
      some none ∧
    (handleDeclineCall uA (startPrivateCall true c7A).state).state.peerConnections
      = [] ∧
    (handleDeclineCall uA (startPrivateCall true c7A).state).state.inCall
      = false ∧
    (handleDeclineCall uA (startPrivateCall true c7A).state).state.localStream
      = none ∧
    (handleDeclineCall uA (startPrivateCall true c7A).state).state.conns.map
        (fun p => p.2.remoteDescription) =
      (startPrivateCall true c7A).state.conns.map
        (fun p => p.2.remoteDescription) :=
  c7_decline_ends_ringing_call c7A c7B uA 0 (by decide) (by decide) (by decide)

/-- Claim C10: `createPeerConnection` on an existing key allocates a
fresh connection and rebinds the key to it; the replaced connection is
not closed, is no longer reachable from the map, and is therefore
still open even after `endCallCleanup` runs (cleanup only closes
connections reachable from the map). -/
theorem c10_replaced_conn_leaks (s : ClientState) (peerId : String)
    (h₁ : ∀ p ∈ s.conns, p.1 < s.nextConnId)
    (h₂ : ∀ q ∈ s.peerConnections, q.2 < s.nextConnId) :
    (callTwice peerId s).2.1 ≠ (callTwice peerId s).2.2 ∧
    lookupAssoc peerId (callTwice peerId s).1.peerConnections =
      some (callTwice peerId s).2.2 ∧
    Option.map PeerConn.closed
      (lookupConn (callTwice peerId s).2.1 (callTwice peerId s).1.conns) =
      some false ∧
    (callTwice peerId s).2.1 ∉
      (callTwice peerId s).1.peerConnections.map Prod.snd ∧
    Option.map PeerConn.closed
      (lookupConn (callTwice peerId s).2.1
        (endCallCleanup (callTwice peerId s).1).state.conns) =
      some false := by
  have hid₁ : (callTwice peerId s).2.1 = s.nextConnId := rfl
  have hid₂ : (callTwice peerId s).2.2 = s.nextConnId + 1 := rfl
  have hmap : (callTwice peerId s).1.peerConnections =
      updateAssoc peerId (s.nextConnId + 1)
        (updateAssoc peerId s.nextConnId s.peerConnections) := rfl
  have hconns : (callTwice peerId s).1.conns =
      (s.conns ++ [(s.nextConnId, newConn)]) ++ [(s.nextConnId + 1, newConn)] := rfl
  have hne : ∀ p ∈ s.conns, p.1 ≠ s.nextConnId :=
    fun p hp => Nat.ne_of_lt (h₁ p hp)
  have hlk : lookupConn s.nextConnId
      ((s.conns ++ [(s.nextConnId, newConn)]) ++ [(s.nextConnId + 1, newConn)]) =
      some newConn := by
    rw [List.append_assoc, lookupConn_append_right _ _ _ hne]
    simp [lookupConn]
  have h₃ : Option.map PeerConn.closed
      (lookupConn (callTwice peerId s).2.1 (callTwice peerId s).1.conns) =
      some false := by
    rw [hid₁, hconns, hlk]
    rfl
  have h₄ : (callTwice peerId s).2.1 ∉
      (callTwice peerId s).1.peerConnections.map Prod.snd := by
    rw [hid₁, hmap, updateAssoc_updateAssoc]
    intro hmem
    rcases snd_mem_updateAssoc peerId (s.nextConnId + 1) s.nextConnId
      s.peerConnections hmem with he | hin
    · omega
    · rcases List.mem_map.mp hin with ⟨q, hq, hq₂⟩
      have hlt := h₂ q hq
      omega
  refine ⟨?_, ?_, h₃, h₄, ?_⟩
  · rw [hid₁, hid₂]
    omega
  · rw [hmap, hid₂, updateAssoc_updateAssoc, lookupAssoc_updateAssoc_self]
  · have hc : (endCallCleanup (callTwice peerId s).1).state.conns =
        closeConns ((callTwice peerId s).1.peerConnections.map Prod.snd)
          (callTwice peerId s).1.conns := rfl
    rw [hc, lookupConn_closeConns_not_mem ((callTwice peerId s).2.1)
      ((callTwice peerId s).1.peerConnections.map Prod.snd)
      ((callTwice peerId s).1.conns) h₄]
    exact h₃

theorem c10_witness :
    (callTwice uB {}).2.1 ≠ (callTwice uB {}).2.2 ∧
    lookupAssoc uB (callTwice uB {}).1.peerConnections =
      some (callTwice uB {}).2.2 ∧
    Option.map PeerConn.closed
      (lookupConn (callTwice uB {}).2.1 (callTwice uB {}).1.conns) =
      some false ∧
    (callTwice uB {}).2.1 ∉
      (callTwice uB {}).1.peerConnections.map Prod.snd ∧
    Option.map PeerConn.closed
      (lookupConn (callTwice uB {}).2.1
        (endCallCleanup (callTwice uB {}).1).state.conns) =
      some false :=
  c10_replaced_conn_leaks {} uB (by decide) (by decide)
